import Mathlib

/-!
Shallow embedding of the nRF GRTC RAM-retention timekeeping module
(`src/utc_time.c`, `src/main.c`) and proofs of its specification claims.

Machine integers are modelled as `Nat`/`Int` with explicit reduction
modulo `2^64` (resp. `2^32`) exactly where the C code's fixed-width
arithmetic wraps.
-/

namespace GrtcRetention

/-- Value `2 ^ 64`, the modulus of C `uint64_t` arithmetic. -/
def U64_MOD : Nat := 18446744073709551616

/-- Value `2 ^ 32`, the modulus of C `uint32_t` arithmetic. -/
def U32_MOD : Nat := 4294967296

/-- Value `2 ^ 63`, the magnitude bound of C `int64_t`. -/
def I64_HALF : Int := 9223372036854775808

/-- Reinterpretation of a `uint64_t` value as `int64_t` (two's complement),
modelling the C casts `(int64_t)utc_timestamp_us` and `(int64_t)grtc_time`. -/
def toInt64 (n : Nat) : Int :=
  if n % U64_MOD < 9223372036854775808 then ((n % U64_MOD : Nat) : Int)
  else ((n % U64_MOD : Nat) : Int) - (U64_MOD : Int)

/-- Wrap an integer into the `int64_t` range, modelling two's-complement
`int64_t` arithmetic results. -/
def wrapI64 (x : Int) : Int :=
  (x + I64_HALF) % (U64_MOD : Int) - I64_HALF

/-- Mixed `uint64_t + int64_t` addition as performed by
`return grtc_time + utc_offset;` — the signed operand is converted to
`uint64_t` and the sum wraps modulo `2^64`. -/
def addU64 (a : Nat) (b : Int) : Nat :=
  (((a : Int) + b) % (U64_MOD : Int)).toNat

/-- The GRTC hardware visible to this module: the free-running 64-bit
counter (`z_nrf_grtc_timer_read`) and the 32-bit KEEPRUNNING register at
`GRTC_BASE + 0x534`. -/
structure GrtcHw where
  grtc : Nat
  keeprunning : Nat
  deriving Repr, DecidableEq

/-- The module-static state of `utc_time.c`:
`static int64_t utc_offset = 0; static bool calibrated = false;`. -/
structure UtcTimeState where
  utc_offset : Int
  calibrated : Bool
  deriving Repr, DecidableEq

/-- Initial values of the file-scope statics. -/
def initUtcTimeState : UtcTimeState := { utc_offset := 0, calibrated := false }

/-- Mask `GRTC_KEEPRUNNING_DOMAIN0_Active << GRTC_KEEPRUNNING_DOMAIN0_Pos` = `1 << 0`. -/
def GRTC_KEEPRUNNING_DOMAIN0_Mask : Nat := 1

/-- Function `z_nrf_grtc_timer_read()`: read the current raw tick count. -/
def z_nrf_grtc_timer_read (hw : GrtcHw) : Nat := hw.grtc

/-- Function `grtc_retention_enable`: `*keeprunning_reg |= (1UL << 0);` —
read-modify-write OR of the DOMAIN0 bit into the KEEPRUNNING register. -/
def grtc_retention_enable (hw : GrtcHw) : GrtcHw :=
  { hw with keeprunning := hw.keeprunning ||| GRTC_KEEPRUNNING_DOMAIN0_Mask }

/-- Function `grtc_retention_check`: `(*keeprunning_reg & (1UL << 0)) != 0`. -/
def grtc_retention_check (hw : GrtcHw) : Bool :=
  decide ((hw.keeprunning &&& GRTC_KEEPRUNNING_DOMAIN0_Mask) ≠ 0)

/-- Function `utc_time_calibrate`: reads the counter, stores
`utc_offset = (int64_t)utc_timestamp_us - (int64_t)grtc_time`, sets
`calibrated = true` and enables GRTC retention.  Returns the updated
hardware and module state. -/
def utc_time_calibrate (utc_timestamp_us : Nat) (hw : GrtcHw) (_s : UtcTimeState) :
    GrtcHw × UtcTimeState :=
  let grtc_time := z_nrf_grtc_timer_read hw
  let offset := wrapI64 (toInt64 utc_timestamp_us - toInt64 grtc_time)
  (grtc_retention_enable hw, { utc_offset := offset, calibrated := true })

/-- Function `utc_time_calibrate_unix`: `utc_us = unix_timestamp * 1000000ULL`
(wrapping `uint64_t` product), then delegates to `utc_time_calibrate`. -/
def utc_time_calibrate_unix (unix_timestamp : Nat) (hw : GrtcHw) (s : UtcTimeState) :
    GrtcHw × UtcTimeState :=
  utc_time_calibrate (unix_timestamp * 1000000 % U64_MOD) hw s

/-- Function `utc_time_is_calibrated`: returns the `calibrated` flag. -/
def utc_time_is_calibrated (s : UtcTimeState) : Bool := s.calibrated

/-- Function `utc_time_get_us`: returns the raw counter when uncalibrated,
otherwise `grtc_time + utc_offset` in `uint64_t` arithmetic. -/
def utc_time_get_us (hw : GrtcHw) (s : UtcTimeState) : Nat :=
  let grtc_time := z_nrf_grtc_timer_read hw
  if !s.calibrated then grtc_time
  else addU64 grtc_time s.utc_offset

/-- Function `utc_time_get_ms`: `utc_time_get_us() / 1000ULL`. -/
def utc_time_get_ms (hw : GrtcHw) (s : UtcTimeState) : Nat :=
  utc_time_get_us hw s / 1000

/-- Function `utc_time_get_sec`: `utc_time_get_us() / 1000000ULL`. -/
def utc_time_get_sec (hw : GrtcHw) (s : UtcTimeState) : Nat :=
  utc_time_get_us hw s / 1000000

/-- The `utc_time_t` struct of `utc_time.h`. -/
structure utc_time_t where
  microseconds : Nat
  milliseconds : Nat
  seconds : Nat
  calibrated : Bool
  deriving Repr, DecidableEq

/-- Function `utc_time_get(utc_time_t *time)`: the pointer argument is modelled as
`Option utc_time_t` (the pointed-to memory, `none` for `NULL`); the result
is that memory after the call.  A `NULL` pointer is returned untouched;
otherwise all three fields are filled from one single
`utc_time_get_us` sample. -/
def utc_time_get (hw : GrtcHw) (s : UtcTimeState) (time : Option utc_time_t) :
    Option utc_time_t :=
  match time with
  | none => none
  | some _ =>
    let us := utc_time_get_us hw s
    some { microseconds := us
           milliseconds := us / 1000
           seconds := us / 1000000
           calibrated := s.calibrated }

/-- Function `utc_time_diff_us`: `(int64_t)time2 - (int64_t)time1` in `int64_t`
arithmetic. -/
def utc_time_diff_us (time1 time2 : Nat) : Int :=
  wrapI64 (toInt64 time2 - toInt64 time1)

/-- Function `utc_time_enable_retention` (public API): delegates to
`grtc_retention_enable`. -/
def utc_time_enable_retention (hw : GrtcHw) : GrtcHw :=
  grtc_retention_enable hw

/-- Function `utc_time_retention_active` (public API): delegates to
`grtc_retention_check`. -/
def utc_time_retention_active (hw : GrtcHw) : Bool :=
  grtc_retention_check hw

/-- Fuelled decimal rendering of a natural number, most significant digit
first, modelling `printf`'s `%llu` conversion. -/
def natToDecAux : Nat → Nat → List Char
  | 0, _ => []
  | fuel + 1, n =>
    if n < 10 then [Char.ofNat (48 + n)]
    else natToDecAux fuel (n / 10) ++ [Char.ofNat (48 + n % 10)]

/-- Decimal digit string of a `uint64_t` value (`%llu`); 20 digits of fuel
suffice for any value below `10 ^ 20 > 2 ^ 64`. -/
def natToDec (n : Nat) : List Char := natToDecAux 20 n

/-- Conversion `%03llu`: decimal rendering left-padded with zeros to width 3. -/
def pad3 (n : Nat) : List Char :=
  List.replicate (3 - (natToDec n).length) (Char.ofNat 48) ++ natToDec n

/-- The string produced by `snprintf(buffer, size, "%llu.%03llu.%03llu s",
sec, ms, remaining_us)` in `utc_time_format_us`. -/
def utc_time_format_us_str (us : Nat) : String :=
  String.mk (natToDec (us / 1000000) ++
    Char.ofNat 46 :: (pad3 (us / 1000 % 1000) ++
      Char.ofNat 46 :: (pad3 (us % 1000) ++ [Char.ofNat 32, Char.ofNat 115])))

/-- The NUL terminator byte. -/
def nulChar : Char := Char.ofNat 0

/-- C99 `snprintf` buffer semantics: the destination is modelled as
`Option (List Char)` (`none` for a `NULL` pointer), and the overall
result as `Option (Option (List Char) × Int)` — the buffer after the
call paired with the returned `int`, or `none` when the C standard
imposes no requirements on the call.  With `size = 0` nothing is written
(the buffer pointer may be `NULL`) and the length of the full formatted
string is returned.  A `NULL` buffer with `size > 0` is undefined
behavior in C99 (a `NULL` dereference in real C libraries), so the model
yields no defined result.  For a valid buffer, at most `size - 1`
characters plus a NUL terminator are stored, the rest of the buffer
keeping its old contents, and the returned `int` is the length the full
formatted string would need, regardless of truncation. -/
def snprintfModel (buffer : Option (List Char)) (size : Nat) (s : String) :
    Option (Option (List Char) × Int) :=
  match buffer with
  | none =>
    if size = 0 then some (none, (s.data.length : Int))
    else none
  | some buf =>
    if size = 0 then some (some buf, (s.data.length : Int))
    else
      let written := s.data.take (size - 1)
      some (some (written ++ nulChar :: buf.drop (written.length + 1)),
        (s.data.length : Int))

/-- Function `utc_time_format_us`: splits `us` into seconds, milliseconds and
remainder microseconds and passes the caller's buffer straight to
`snprintf` — the function performs no check of its own on the buffer. -/
def utc_time_format_us (us : Nat) (buffer : Option (List Char)) (size : Nat) :
    Option (Option (List Char) × Int) :=
  snprintfModel buffer size (utc_time_format_us_str us)

/-- Function `utc_time_format`: formats the current `utc_time_get_us()` value. -/
def utc_time_format (hw : GrtcHw) (s : UtcTimeState)
    (buffer : Option (List Char)) (size : Nat) : Option (Option (List Char) × Int) :=
  utc_time_format_us (utc_time_get_us hw s) buffer size

/-- The `retained` block of `retained.h`/`retained.c` as used by
`src/main.c`: boot and off counters (`uint32_t`), uptime accumulators
(`uint64_t`) and the CRC word.  (The struct declaration itself lives in
`retained.h`, which is referenced by `main.c` but not part of `src/`; its
fields are exactly the five the spec's data model lists.) -/
structure RetainedState where
  boots : Nat
  off_count : Nat
  uptime_latest : Nat
  uptime_sum : Nat
  crc : Nat
  deriving Repr, DecidableEq

/-- Modelled from the spec: `retained_update()` of `retained.c` is not
under `src/` (only `main.c`'s calls to it are).  Per the spec it reads the
current tick count, advances `uptime_latest` to the latest observed value,
accrues the positive delta into `uptime_sum`, and recomputes the stored
`crc` as a deterministic function of the four data fields; it does not
touch `boots` or `off_count`.  The CRC algorithm is deliberately left as a
parameter, since the spec fixes only that it is one deterministic
function of the other four fields. -/
def retained_update (crcOf : Nat → Nat → Nat → Nat → Nat) (tick : Nat)
    (r : RetainedState) : RetainedState :=
  let latest := tick % U64_MOD
  let sum := (r.uptime_sum + (latest - r.uptime_latest)) % U64_MOD
  { boots := r.boots
    off_count := r.off_count
    uptime_latest := latest
    uptime_sum := sum
    crc := crcOf r.boots r.off_count latest sum % U32_MOD }

/-- The record-boot step of `reboot_work_handler` in `src/main.c`:
`retained.boots++; retained_update();` — the `uint32_t` increment wraps
modulo `2^32`. -/
def reboot_record_boot (crcOf : Nat → Nat → Nat → Nat → Nat) (tick : Nat)
    (r : RetainedState) : RetainedState :=
  retained_update crcOf tick { r with boots := (r.boots + 1) % U32_MOD }

/-- An operation on the retained block: a periodic `retained_update()`
tick, or the record-boot step performed immediately before a forced
reset.  Each carries the tick reading observed at that moment. -/
inductive RetainedOp where
  | update (tick : Nat)
  | recordBoot (tick : Nat)
  deriving Repr, DecidableEq

/-- Run a sequence of retained-block operations left to right. -/
def runOps (crcOf : Nat → Nat → Nat → Nat → Nat) :
    List RetainedOp → RetainedState → RetainedState
  | [], r => r
  | RetainedOp.update t :: rest, r => runOps crcOf rest (retained_update crcOf t r)
  | RetainedOp.recordBoot t :: rest, r => runOps crcOf rest (reboot_record_boot crcOf t r)

/-- Number of record-boot steps in an operation sequence. -/
def countBoots : List RetainedOp → Nat
  | [] => 0
  | RetainedOp.recordBoot _ :: rest => countBoots rest + 1
  | RetainedOp.update _ :: rest => countBoots rest

/-! ## Arithmetic helper lemmas -/

/-- Adding the calibration offset `U - t0` (computed in wrapping `int64_t`
arithmetic) to the advanced counter reading `t0 + D` recovers `U + D`
modulo `2 ^ 64`. -/
theorem addU64_wrapI64_offset (t0 D U : Nat) :
    addU64 (t0 + D) (wrapI64 (toInt64 U - toInt64 t0)) = (U + D) % U64_MOD := by
  unfold addU64 wrapI64 toInt64 I64_HALF U64_MOD
  split_ifs <;> omega

/-- The low bit of `k ||| 1` is always set. -/
theorem or_one_mod_two (k : Nat) : (k ||| 1) % 2 = 1 := by
  have h : Nat.testBit (k ||| 1) 0 = true := by
    rw [Nat.testBit_lor]
    simp
  simp only [Nat.testBit_zero, decide_eq_true_eq] at h
  exact h

/-! ## C1: calibration offset correctness -/

/-- C1.  For every tick reading `t0` (= `hw.grtc`) and every UTC timestamp
`U`, after `utc_time_calibrate U` runs while the counter reads `t0`,
`utc_time_get_us` with the counter advanced by any `D` returns
`(U + D) % 2^64` — hence exactly `U + D` whenever that value fits in 64
bits, and exactly `U` immediately after calibration (no tick advance). -/
theorem calibrate_then_get_us_exact :
    ∀ (U D : Nat) (hw : GrtcHw) (s : UtcTimeState),
      utc_time_get_us { (utc_time_calibrate U hw s).1 with grtc := hw.grtc + D }
          (utc_time_calibrate U hw s).2 = (U + D) % U64_MOD ∧
      (U + D < U64_MOD →
        utc_time_get_us { (utc_time_calibrate U hw s).1 with grtc := hw.grtc + D }
            (utc_time_calibrate U hw s).2 = U + D) ∧
      (U < U64_MOD →
        utc_time_get_us (utc_time_calibrate U hw s).1 (utc_time_calibrate U hw s).2 = U) := by
  intro U D hw s
  have h1 : utc_time_get_us { (utc_time_calibrate U hw s).1 with grtc := hw.grtc + D }
      (utc_time_calibrate U hw s).2 =
      addU64 (hw.grtc + D) (wrapI64 (toInt64 U - toInt64 hw.grtc)) := rfl
  have h0 : utc_time_get_us (utc_time_calibrate U hw s).1 (utc_time_calibrate U hw s).2 =
      addU64 hw.grtc (wrapI64 (toInt64 U - toInt64 hw.grtc)) := rfl
  refine ⟨?_, ?_, ?_⟩
  · rw [h1, addU64_wrapI64_offset]
  · intro hlt
    rw [h1, addU64_wrapI64_offset, Nat.mod_eq_of_lt hlt]
  · intro hlt
    have := addU64_wrapI64_offset hw.grtc 0 U
    rw [h0]
    simpa [Nat.mod_eq_of_lt hlt] using this

/-- Witness for C1 at `U = 1000000`, `t0 = 42`, `D = 5`. -/
theorem calibrate_then_get_us_exact_witness :
    utc_time_get_us
        { (utc_time_calibrate 1000000 ⟨42, 0⟩ initUtcTimeState).1 with
          grtc := (⟨42, 0⟩ : GrtcHw).grtc + 5 }
        (utc_time_calibrate 1000000 ⟨42, 0⟩ initUtcTimeState).2 = 1000000 + 5 :=
  (calibrate_then_get_us_exact 1000000 5 ⟨42, 0⟩ initUtcTimeState).2.1 (by decide)

/-! ## C2: uncalibrated fallback -/

/-- C2.  With no prior calibration (`calibrated = false`),
`utc_time_get_us` returns the raw hardware tick count unmodified. -/
theorem uncalibrated_get_us_raw :
    ∀ (hw : GrtcHw) (s : UtcTimeState), s.calibrated = false →
      utc_time_get_us hw s = z_nrf_grtc_timer_read hw := by
  intro hw s h
  simp [utc_time_get_us, h]

/-- Witness for C2 at a counter reading of `123456`. -/
theorem uncalibrated_get_us_raw_witness :
    utc_time_get_us ⟨123456, 0⟩ initUtcTimeState = z_nrf_grtc_timer_read ⟨123456, 0⟩ :=
  uncalibrated_get_us_raw ⟨123456, 0⟩ initUtcTimeState rfl

/-! ## C3: calibration sets the flag and the retention bit -/

/-- C3.  After `utc_time_calibrate U` returns, `utc_time_is_calibrated`
reports `true` and `utc_time_retention_active` reports `true` (the
DOMAIN0 KEEPRUNNING bit is set). -/
theorem calibrate_sets_calibrated_and_retention :
    ∀ (U : Nat) (hw : GrtcHw) (s : UtcTimeState),
      utc_time_is_calibrated (utc_time_calibrate U hw s).2 = true ∧
      utc_time_retention_active (utc_time_calibrate U hw s).1 = true := by
  intro U hw s
  refine ⟨rfl, ?_⟩
  show grtc_retention_check (grtc_retention_enable hw) = true
  simp [grtc_retention_check, grtc_retention_enable, GRTC_KEEPRUNNING_DOMAIN0_Mask,
    Nat.and_one_is_mod, or_one_mod_two]

/-! ## C9: millisecond and second readings are truncating divisions -/

/-- C9.  In every state, `utc_time_get_ms` is `utc_time_get_us / 1000` and
`utc_time_get_sec` is `utc_time_get_us / 1000000`, both truncating: the
quotient times the divisor never exceeds the microsecond reading, and
falls short of it by less than one divisor. -/
theorem get_ms_sec_truncating_division :
    ∀ (hw : GrtcHw) (s : UtcTimeState),
      utc_time_get_ms hw s = utc_time_get_us hw s / 1000 ∧
      utc_time_get_sec hw s = utc_time_get_us hw s / 1000000 ∧
      utc_time_get_ms hw s * 1000 ≤ utc_time_get_us hw s ∧
      utc_time_get_us hw s < utc_time_get_ms hw s * 1000 + 1000 ∧
      utc_time_get_sec hw s * 1000000 ≤ utc_time_get_us hw s ∧
      utc_time_get_us hw s < utc_time_get_sec hw s * 1000000 + 1000000 := by
  intro hw s
  unfold utc_time_get_ms utc_time_get_sec
  refine ⟨rfl, rfl, ?_, ?_, ?_, ?_⟩ <;> omega

/-! ## C10: the struct filled by utc_time_get is internally consistent -/

/-- C10.  For a non-null pointer, `utc_time_get` fills all three time
fields from one single tick sample, so `milliseconds = microseconds / 1000`,
`seconds = microseconds / 1000000` and the `calibrated` field equals the
engine's flag; a null pointer is left untouched. -/
theorem utc_time_get_struct_consistent :
    (∀ (hw : GrtcHw) (s : UtcTimeState) (old : utc_time_t),
       ∃ t : utc_time_t,
         utc_time_get hw s (some old) = some t ∧
         t.microseconds = utc_time_get_us hw s ∧
         t.milliseconds = t.microseconds / 1000 ∧
         t.seconds = t.microseconds / 1000000 ∧
         t.calibrated = utc_time_is_calibrated s) ∧
    (∀ (hw : GrtcHw) (s : UtcTimeState), utc_time_get hw s none = none) := by
  refine ⟨?_, ?_⟩
  · intro hw s old
    exact ⟨_, rfl, rfl, rfl, rfl, rfl⟩
  · intro hw s
    rfl

/-! ## C7: retention enable is an idempotent single-bit read-modify-write -/

/-- C7.  `utc_time_enable_retention` is idempotent (calling it twice
equals calling it once), is a no-op when the bit is already set, never
perturbs the counter value, and modifies only bit 0 (DOMAIN0
KEEPRUNNING) of the register, preserving every other bit. -/
theorem enable_retention_idempotent_bit_preserving :
    (∀ hw : GrtcHw,
       utc_time_enable_retention (utc_time_enable_retention hw) =
         utc_time_enable_retention hw) ∧
    (∀ hw : GrtcHw, utc_time_retention_active hw = true →
       utc_time_enable_retention hw = hw) ∧
    (∀ hw : GrtcHw, (utc_time_enable_retention hw).grtc = hw.grtc) ∧
    (∀ (hw : GrtcHw) (i : Nat), i ≠ 0 →
       (utc_time_enable_retention hw).keeprunning.testBit i =
         hw.keeprunning.testBit i) := by
  refine ⟨?_, ?_, ?_, ?_⟩
  · intro hw
    show ({ hw with keeprunning := (hw.keeprunning ||| 1) ||| 1 } : GrtcHw) =
      { hw with keeprunning := hw.keeprunning ||| 1 }
    rw [Nat.or_assoc, Nat.or_self]
  · intro hw h
    have hb : hw.keeprunning % 2 = 1 := by
      simp only [utc_time_retention_active, grtc_retention_check,
        GRTC_KEEPRUNNING_DOMAIN0_Mask, Nat.and_one_is_mod, decide_eq_true_eq] at h
      omega
    have hk : hw.keeprunning ||| 1 = hw.keeprunning := by
      apply Nat.eq_of_testBit_eq
      intro i
      rw [Nat.testBit_lor]
      cases i with
      | zero => simp [hb]
      | succ j => simp [Nat.testBit_succ]
    show ({ hw with keeprunning := hw.keeprunning ||| 1 } : GrtcHw) = hw
    rw [hk]
  · intro hw
    rfl
  · intro hw i hi
    show (hw.keeprunning ||| 1).testBit i = hw.keeprunning.testBit i
    rw [Nat.testBit_lor]
    cases i with
    | zero => exact absurd rfl hi
    | succ j => simp [Nat.testBit_succ]

/-- Witness for C7: with the bit already set (`keeprunning = 7`) the call
is a no-op, and on `keeprunning = 6` bit 1 is preserved. -/
theorem enable_retention_idempotent_witness :
    utc_time_enable_retention ⟨5, 7⟩ = (⟨5, 7⟩ : GrtcHw) ∧
    (utc_time_enable_retention ⟨5, 6⟩).keeprunning.testBit 1 =
      (⟨5, 6⟩ : GrtcHw).keeprunning.testBit 1 :=
  ⟨enable_retention_idempotent_bit_preserving.2.1 ⟨5, 7⟩ (by decide),
   enable_retention_idempotent_bit_preserving.2.2.2 ⟨5, 6⟩ 1 (by decide)⟩

/-! ## C8: signed 64-bit difference -/

/-- C8 counterexample.  At `a = 2^64 - 1 > b = 0` the claim's "a > b
yields a negative result" fails: the wrapped `int64_t` subtraction gives
`+1`, not a negative value. -/
theorem diff_us_sign_counterexample :
    18446744073709551615 > 0 ∧
    utc_time_diff_us 18446744073709551615 0 = 1 ∧
    ¬ utc_time_diff_us 18446744073709551615 0 < 0 := by
  refine ⟨by omega, by decide, by decide⟩

/-- C8 (amended).  `utc_time_diff_us a b` is `b - a` reduced to a signed
64-bit value, without clamping; it equals `b - a` exactly — and is
negative whenever `a > b` — provided the true difference fits the
`int64_t` range; `diff_us 100 50 = -50` and `diff_us 50 100 = 50`. -/
theorem diff_us_signed_no_clamp :
    (∀ a b : Nat, a < U64_MOD → b < U64_MOD →
       utc_time_diff_us a b = wrapI64 ((b : Int) - (a : Int))) ∧
    (∀ a b : Nat, a < U64_MOD → b < U64_MOD →
       -I64_HALF ≤ (b : Int) - (a : Int) → (b : Int) - (a : Int) < I64_HALF →
       utc_time_diff_us a b = (b : Int) - (a : Int)) ∧
    (∀ a b : Nat, a < U64_MOD → b < U64_MOD → b < a →
       (a : Int) - (b : Int) ≤ I64_HALF →
       utc_time_diff_us a b < 0) ∧
    utc_time_diff_us 100 50 = -50 ∧
    utc_time_diff_us 50 100 = 50 := by
  refine ⟨?_, ?_, ?_, by decide, by decide⟩
  · intro a b ha hb
    unfold utc_time_diff_us wrapI64 toInt64 I64_HALF U64_MOD at *
    split_ifs <;> omega
  · intro a b ha hb hlo hhi
    unfold utc_time_diff_us wrapI64 toInt64 I64_HALF U64_MOD at *
    split_ifs <;> omega
  · intro a b ha hb hba hfit
    unfold utc_time_diff_us wrapI64 toInt64 I64_HALF U64_MOD at *
    split_ifs <;> omega

/-- Witness for C8's amended theorem at `a = 100`, `b = 50`. -/
theorem diff_us_signed_no_clamp_witness :
    utc_time_diff_us 100 50 = ((50 : Nat) : Int) - ((100 : Nat) : Int) :=
  diff_us_signed_no_clamp.2.1 100 50 (by decide) (by decide) (by decide) (by decide)

/-! ## C4: boot counter exactness -/

/-- Run of an operation list adds exactly the number of record-boot steps
to `boots`, as long as the `uint32_t` counter does not overflow. -/
theorem runOps_boots (crcOf : Nat → Nat → Nat → Nat → Nat) :
    ∀ (ops : List RetainedOp) (r : RetainedState),
      r.boots + countBoots ops < U32_MOD →
      (runOps crcOf ops r).boots = r.boots + countBoots ops := by
  intro ops
  induction ops with
  | nil =>
    intro r _
    simp [runOps, countBoots]
  | cons op rest ih =>
    intro r h
    cases op with
    | update t =>
      have step : runOps crcOf (RetainedOp.update t :: rest) r =
          runOps crcOf rest (retained_update crcOf t r) := rfl
      have hc : countBoots (RetainedOp.update t :: rest) = countBoots rest := rfl
      have hb : (retained_update crcOf t r).boots = r.boots := rfl
      rw [hc] at h
      have h' : (retained_update crcOf t r).boots + countBoots rest < U32_MOD := by
        rw [hb]; exact h
      rw [step, hc, ih _ h', hb]
    | recordBoot t =>
      have step : runOps crcOf (RetainedOp.recordBoot t :: rest) r =
          runOps crcOf rest (reboot_record_boot crcOf t r) := rfl
      have hc : countBoots (RetainedOp.recordBoot t :: rest) = countBoots rest + 1 := rfl
      have hb : (reboot_record_boot crcOf t r).boots = (r.boots + 1) % U32_MOD := rfl
      rw [hc] at h
      have hlt : r.boots + 1 < U32_MOD := by omega
      have hb' : (reboot_record_boot crcOf t r).boots = r.boots + 1 := by
        rw [hb, Nat.mod_eq_of_lt hlt]
      rw [step, hc, ih _ (by rw [hb']; omega), hb']
      omega

/-- C4.  A single record-boot step (`retained.boots++; retained_update();`
immediately before the forced reset) increments `boots` by exactly 1, a
periodic `retained_update()` never changes `boots`, performing the
record-boot step `N` times interleaved with any number of updates
increases `boots` by exactly `N`, and `boots` never decreases — all
barring `uint32_t` overflow of the counter. -/
theorem record_boot_exact_increment :
    (∀ (crcOf : Nat → Nat → Nat → Nat → Nat) (tick : Nat) (r : RetainedState),
       r.boots + 1 < U32_MOD →
       (reboot_record_boot crcOf tick r).boots = r.boots + 1) ∧
    (∀ (crcOf : Nat → Nat → Nat → Nat → Nat) (tick : Nat) (r : RetainedState),
       (retained_update crcOf tick r).boots = r.boots) ∧
    (∀ (crcOf : Nat → Nat → Nat → Nat → Nat) (ops : List RetainedOp) (r : RetainedState),
       r.boots + countBoots ops < U32_MOD →
       (runOps crcOf ops r).boots = r.boots + countBoots ops) ∧
    (∀ (crcOf : Nat → Nat → Nat → Nat → Nat) (ops : List RetainedOp) (r : RetainedState),
       r.boots + countBoots ops < U32_MOD →
       r.boots ≤ (runOps crcOf ops r).boots) := by
  refine ⟨?_, ?_, ?_, ?_⟩
  · intro crcOf tick r h
    show (r.boots + 1) % U32_MOD = r.boots + 1
    exact Nat.mod_eq_of_lt h
  · intro crcOf tick r
    rfl
  · intro crcOf ops r h
    exact runOps_boots crcOf ops r h
  · intro crcOf ops r h
    rw [runOps_boots crcOf ops r h]
    omega

/-- Witness for C4: two record-boot steps interleaved with an update on a
zeroed block leave `boots = 0 + 2`. -/
theorem record_boot_exact_increment_witness :
    (runOps (fun a b c d => a + b + c + d)
        [RetainedOp.recordBoot 5, RetainedOp.update 7, RetainedOp.recordBoot 9]
        ⟨0, 0, 0, 0, 0⟩).boots =
      (⟨0, 0, 0, 0, 0⟩ : RetainedState).boots +
        countBoots [RetainedOp.recordBoot 5, RetainedOp.update 7, RetainedOp.recordBoot 9] :=
  record_boot_exact_increment.2.2.1 (fun a b c d => a + b + c + d)
    [RetainedOp.recordBoot 5, RetainedOp.update 7, RetainedOp.recordBoot 9]
    ⟨0, 0, 0, 0, 0⟩ (by decide)

/-! ## Decimal-rendering helper lemmas -/

/-- Independent decimal decoder: reads a digit string back as a number,
treating each character as its ASCII value minus 48. -/
def decodeDec (l : List Char) : Nat :=
  l.foldl (fun a c => a * 10 + (c.toNat - 48)) 0

/-- Decoding after appending one digit multiplies by ten and adds it. -/
theorem decodeDec_append_singleton (xs : List Char) (c : Char) :
    decodeDec (xs ++ [c]) = decodeDec xs * 10 + (c.toNat - 48) := by
  simp [decodeDec, List.foldl_append]

/-- ASCII value of a decimal digit character. -/
theorem digit_toNat (n : Nat) (h : n < 10) : (Char.ofNat (48 + n)).toNat = 48 + n := by
  interval_cases n <;> decide

/-- One-step unfolding of the renderer in the multi-digit case. -/
theorem natToDecAux_step (fuel n : Nat) (h : ¬ n < 10) :
    natToDecAux (fuel + 1) n =
      natToDecAux fuel (n / 10) ++ [Char.ofNat (48 + n % 10)] := by
  show (if n < 10 then [Char.ofNat (48 + n)]
    else natToDecAux fuel (n / 10) ++ [Char.ofNat (48 + n % 10)]) = _
  rw [if_neg h]

/-- The rendered digit list never exceeds the fuel in length. -/
theorem natToDecAux_length_le : ∀ (fuel n : Nat), (natToDecAux fuel n).length ≤ fuel := by
  intro fuel
  induction fuel with
  | zero =>
    intro n
    simp [natToDecAux]
  | succ g ih =>
    intro n
    by_cases hn : n < 10
    · simp [natToDecAux, hn]
    · simp only [natToDecAux, hn, if_false, List.length_append, List.length_singleton]
      have := ih (n / 10)
      omega

/-- With positive fuel the rendered digit list is nonempty. -/
theorem natToDecAux_length_pos (fuel n : Nat) (h : 0 < fuel) :
    0 < (natToDecAux fuel n).length := by
  cases fuel with
  | zero => omega
  | succ g =>
    by_cases hn : n < 10
    · simp [natToDecAux, hn]
    · simp [natToDecAux, hn]

/-- The rendering does not depend on the fuel, given enough of it. -/
theorem natToDecAux_fuel_irrel :
    ∀ (f f' n : Nat), n < 10 ^ (f + 1) → n < 10 ^ (f' + 1) →
      natToDecAux (f + 1) n = natToDecAux (f' + 1) n := by
  intro f
  induction f with
  | zero =>
    intro f' n h _
    have h10 : n < 10 := by simpa using h
    simp [natToDecAux, h10]
  | succ g ih =>
    intro f' n h h'
    by_cases hn : n < 10
    · simp [natToDecAux, hn]
    · cases f' with
      | zero =>
        exact absurd (by simpa using h') hn
      | succ g' =>
        have hd : n / 10 < 10 ^ (g + 1) := by
          rw [Nat.div_lt_iff_lt_mul (by norm_num)]
          calc n < 10 ^ (g + 1 + 1) := h
            _ = 10 ^ (g + 1) * 10 := by ring
        have hd' : n / 10 < 10 ^ (g' + 1) := by
          rw [Nat.div_lt_iff_lt_mul (by norm_num)]
          calc n < 10 ^ (g' + 1 + 1) := h'
            _ = 10 ^ (g' + 1) * 10 := by ring
        rw [natToDecAux_step (g + 1) n hn, natToDecAux_step (g' + 1) n hn,
          ih g' (n / 10) hd hd']

/-- The decoder inverts the renderer on any value within the fuel bound. -/
theorem decodeDec_natToDecAux :
    ∀ (f n : Nat), n < 10 ^ (f + 1) → decodeDec (natToDecAux (f + 1) n) = n := by
  intro f
  induction f with
  | zero =>
    intro n h
    have h10 : n < 10 := by simpa using h
    simp [natToDecAux, h10, decodeDec, digit_toNat n h10]
  | succ g ih =>
    intro n h
    by_cases hn : n < 10
    · simp [natToDecAux, hn, decodeDec, digit_toNat n hn]
    · have hd : n / 10 < 10 ^ (g + 1) := by
        rw [Nat.div_lt_iff_lt_mul (by norm_num)]
        calc n < 10 ^ (g + 1 + 1) := h
          _ = 10 ^ (g + 1) * 10 := by ring
      rw [natToDecAux_step (g + 1) n hn, decodeDec_append_singleton, ih _ hd,
        digit_toNat _ (Nat.mod_lt _ (by norm_num))]
      omega

/-- The decoder inverts `natToDec` below `10 ^ 20`. -/
theorem decodeDec_natToDec (n : Nat) (h : n < 10 ^ 20) :
    decodeDec (natToDec n) = n :=
  decodeDec_natToDecAux 19 n h

/-- Values below 1000 render to at most three digits. -/
theorem natToDec_short (m : Nat) (h : m < 1000) : (natToDec m).length ≤ 3 := by
  unfold natToDec
  have h20 : m < 10 ^ (19 + 1) := lt_trans h (by norm_num)
  have h3 : m < 10 ^ (2 + 1) := by simpa using h
  have : natToDecAux (19 + 1) m = natToDecAux (2 + 1) m :=
    natToDecAux_fuel_irrel 19 2 m h20 h3
  rw [show (20 : Nat) = 19 + 1 from rfl, this]
  exact natToDecAux_length_le 3 m

/-- Zero-padding to width 3 produces exactly three characters for values
below 1000. -/
theorem pad3_length (m : Nat) (h : m < 1000) : (pad3 m).length = 3 := by
  unfold pad3
  have h1 := natToDec_short m h
  have h2 : 0 < (natToDec m).length := natToDecAux_length_pos 20 m (by norm_num)
  simp only [List.length_append, List.length_replicate]
  omega

/-- Leading zero characters do not change the decoded value. -/
theorem decodeDec_replicate_zero_append (k : Nat) (l : List Char) :
    decodeDec (List.replicate k (Char.ofNat 48) ++ l) = decodeDec l := by
  induction k with
  | zero => simp
  | succ j ih =>
    have hz : (0 : Nat) * 10 + ((Char.ofNat 48).toNat - 48) = 0 := by decide
    calc decodeDec (List.replicate (j + 1) (Char.ofNat 48) ++ l)
        = List.foldl (fun a c => a * 10 + (c.toNat - 48))
            ((0 : Nat) * 10 + ((Char.ofNat 48).toNat - 48))
            (List.replicate j (Char.ofNat 48) ++ l) := by
          simp [decodeDec, List.replicate_succ]
      _ = decodeDec (List.replicate j (Char.ofNat 48) ++ l) := by
          rw [hz]; rfl
      _ = decodeDec l := ih

/-- Zero-padding preserves the decoded value. -/
theorem decodeDec_pad3 (m : Nat) (h : m < 1000) : decodeDec (pad3 m) = m := by
  unfold pad3
  rw [decodeDec_replicate_zero_append]
  exact decodeDec_natToDec m (lt_trans h (by norm_num))

/-! ## C5: exact triple-grouped rendering -/

/-- C5.  `utc_time_format_us` renders
`"<seconds>.<milliseconds>.<remainder-microseconds> s"`, with the
millisecond and microsecond components zero-padded to exactly 3 digits
whose decoded values are `us / 1000 % 1000` and `us % 1000`, and the
seconds component decoding to `us / 1000000`; in particular `1234567`
renders to `"1.234.567 s"` and `999` to `"0.000.999 s"`.  (Characters 46,
32 and 115 are `.`, the space and `s`.) -/
theorem format_us_rendering :
    utc_time_format_us_str 1234567 = "1.234.567 s" ∧
    utc_time_format_us_str 999 = "0.000.999 s" ∧
    ∀ us : Nat, us < U64_MOD → ∃ msStr usStr : List Char,
      msStr.length = 3 ∧ usStr.length = 3 ∧
      decodeDec msStr = us / 1000 % 1000 ∧
      decodeDec usStr = us % 1000 ∧
      decodeDec (natToDec (us / 1000000)) = us / 1000000 ∧
      (utc_time_format_us_str us).data =
        natToDec (us / 1000000) ++
          Char.ofNat 46 :: (msStr ++
            Char.ofNat 46 :: (usStr ++ [Char.ofNat 32, Char.ofNat 115])) := by
  refine ⟨by decide, by decide, ?_⟩
  intro us hus
  have hm : us / 1000 % 1000 < 1000 := Nat.mod_lt _ (by norm_num)
  have hu : us % 1000 < 1000 := Nat.mod_lt _ (by norm_num)
  have hsec : us / 1000000 < 10 ^ 20 := by
    have h1 : us / 1000000 ≤ us := Nat.div_le_self _ _
    have h2 : us < 10 ^ 20 := lt_of_lt_of_le hus (by norm_num [U64_MOD])
    omega
  exact ⟨pad3 (us / 1000 % 1000), pad3 (us % 1000),
    pad3_length _ hm, pad3_length _ hu,
    decodeDec_pad3 _ hm, decodeDec_pad3 _ hu,
    decodeDec_natToDec _ hsec, rfl⟩

/-- Witness for C5's quantified part at `us = 1234567`. -/
theorem format_us_rendering_witness :
    ∃ msStr usStr : List Char,
      msStr.length = 3 ∧ usStr.length = 3 ∧
      decodeDec msStr = 1234567 / 1000 % 1000 ∧
      decodeDec usStr = 1234567 % 1000 ∧
      decodeDec (natToDec (1234567 / 1000000)) = 1234567 / 1000000 ∧
      (utc_time_format_us_str 1234567).data =
        natToDec (1234567 / 1000000) ++
          Char.ofNat 46 :: (msStr ++
            Char.ofNat 46 :: (usStr ++ [Char.ofNat 32, Char.ofNat 115])) :=
  format_us_rendering.2.2 1234567 (by decide)

/-! ## C6: null output buffer handling -/

/-- C6 (code bug).  The claimed defensive no-op for a `NULL` output
buffer does not exist in the code: `utc_time_format_us` performs no null
check and hands the buffer straight to `snprintf`, so a `NULL` buffer
with any nonzero size — e.g. the failing input `us = 999`, `buffer =
NULL`, `size = 64` — has no defined result at all (undefined behavior in
C99, a `NULL` dereference in real C libraries), rather than a no-op
return that writes nothing.  Only the `size = 0` call is defined: it
writes nothing and returns the formatted length.  For a valid buffer the
call always returns the full formatted length, which the caller must
compare against the capacity before trusting the stored string. -/
theorem format_null_buffer_no_defensive_check :
    utc_time_format_us 999 none 64 = none ∧
    (∀ us size : Nat, utc_time_format_us us none (size + 1) = none) ∧
    (∀ (hw : GrtcHw) (s : UtcTimeState) (size : Nat),
       utc_time_format hw s none (size + 1) = none) ∧
    (∀ us : Nat, utc_time_format_us us none 0 =
       some (none, ((utc_time_format_us_str us).data.length : Int))) ∧
    (∀ (us size : Nat) (buf : List Char), ∃ res : Option (List Char) × Int,
       utc_time_format_us us (some buf) size = some res ∧
       res.2 = ((utc_time_format_us_str us).data.length : Int)) := by
  refine ⟨rfl, ?_, ?_, ?_, ?_⟩
  · intro us size
    simp [utc_time_format_us, snprintfModel]
  · intro hw s size
    simp [utc_time_format, utc_time_format_us, snprintfModel]
  · intro us
    rfl
  · intro us size buf
    cases size with
    | zero => exact ⟨_, rfl, rfl⟩
    | succ k => exact ⟨_, rfl, rfl⟩

end GrtcRetention
